import Mathlib

/-!
Verification of the ingress-gce fragments: CDN reconciliation
(`pkg/backends/features/cdn.go`), the handwritten composite wrappers
(proxy / forwarding-rule / security-policy / signed-URL-key setters),
L4 ILB metrics aggregation, and the e2e sandbox `Ensure`.

Go pointers to structs are embedded as `Option` of the struct (nil = `none`);
a nil-pointer dereference (Go panic) makes the embedded function return
`none` at its `Option` result type.  Errors (`error` values) are `Option
GoErr` with `GoErr := String` carrying the `Error()` message.
-/

abbrev GoErr := String

/-! ## CDN data model (`pkg/apis/backendconfig`, `pkg/composite`) -/

/-- Embeds `composite.CacheKeyPolicy`: the cache-key sub-policy of a backend
service's CDN policy. -/
structure CacheKeyPolicy where
  IncludeHost : Bool := false
  IncludeProtocol : Bool := false
  IncludeQueryString : Bool := false
  QueryStringBlacklist : List String := []
  QueryStringWhitelist : List String := []
  deriving DecidableEq, Repr

/-- Embeds `composite.BackendServiceCdnPolicy` (fields used by `cdn.go`, plus
`SignedUrlCacheMaxAgeSec` as a representative field the shown code never
writes).  `CacheKeyPolicy` is a pointer in Go, hence `Option`. -/
structure BackendServiceCdnPolicy where
  CacheKeyPolicy : Option CacheKeyPolicy := none
  CacheMode : String := ""
  RequestCoalescing : Bool := false
  ServeWhileStale : Int := 0
  SignedUrlCacheMaxAgeSec : Int := 0
  deriving DecidableEq, Repr

/-- Embeds `meta.Version`: the GCE compute API version a composite object targets.
The Go `switch` treats everything other than alpha and beta as GA
(`default:`), which the `ga` constructor represents. -/
inductive Version where
  | alpha
  | beta
  | ga
  deriving DecidableEq, Repr

/-- Embeds `meta.KeyType` and `meta.Scope`: the scope of a GCE resource key. -/
inductive KeyKind where
  | regional
  | zonal
  | global_
  deriving DecidableEq, Repr

/-- Embeds `composite.BackendService`: the fields `cdn.go` reads or writes
(`EnableCDN`, `CdnPolicy`), the metadata the composite wrappers dispatch on
(`Version`, `Scope`, `Name`), and representative further fields
(`Description`, `Port`, `SecurityPolicy`) to state frame properties. -/
structure BackendService where
  Name : String := ""
  Description : String := ""
  Port : Int := 0
  SecurityPolicy : String := ""
  EnableCDN : Bool := false
  CdnPolicy : Option BackendServiceCdnPolicy := none
  Version : Version := .ga
  Scope : KeyKind := .global_
  deriving DecidableEq, Repr

/-- Embeds `backendconfig.CacheKeyPolicy`: the cache-key settings of a
`BackendConfig`'s CDN section (fields read by `applyCDNSettings`). -/
structure CacheKeyPolicyConfig where
  IncludeHost : Bool := false
  IncludeProtocol : Bool := false
  IncludeQueryString : Bool := false
  QueryStringBlacklist : List String := []
  QueryStringWhitelist : List String := []
  deriving DecidableEq, Repr

/-- Embeds `backendconfig.CDNConfig` (the fields `applyCDNSettings` reads).
`CachePolicy`, `CacheMode`, `RequestCoalescing` and `ServeWhileStaleSec`
are pointers in Go, hence `Option`. -/
structure CDNConfig where
  Enabled : Bool := false
  CachePolicy : Option CacheKeyPolicyConfig := none
  CacheMode : Option String := none
  RequestCoalescing : Option Bool := none
  ServeWhileStaleSec : Option Int := none
  deriving DecidableEq, Repr

/-- Embeds `utils.ServicePort`, narrowed to the data `cdn.go` reads:
`sp.BackendConfig.Spec.Cdn` (a pointer, hence `Option`). -/
structure ServicePort where
  Cdn : Option CDNConfig := none
  deriving DecidableEq, Repr

/-! ## `applyCDNSettings` and `EnsureCDN` (`pkg/backends/features/cdn.go`) -/

/-- Helper for the embedding of `applyCDNSettings`: the last two conditional
writes (`RequestCoalescing`, `ServeWhileStale`) of the Go function, split
out as a top-level definition. -/
def applyCDNSettingsTail (cdnConfig : CDNConfig) (be : BackendService) :
    Option BackendService :=
  let step1 :=
    match cdnConfig.RequestCoalescing with
    | some rc =>
      match be.CdnPolicy with
      | none => none
      | some p => some { be with CdnPolicy := some { p with RequestCoalescing := rc } }
    | none => some be
  match step1 with
  | none => none
  | some be =>
    match cdnConfig.ServeWhileStaleSec with
    | some sws =>
      match be.CdnPolicy with
      | none => none
      | some p => some { be with CdnPolicy := some { p with ServeWhileStale := sws } }
    | none => some be

/-- Embeds `applyCDNSettings` from `cdn.go`.  Returns `none` when the Go code would
panic: reading `cdnConfig.Enabled` through a nil `Cdn` pointer, or writing
`be.CdnPolicy.CacheMode` (or `RequestCoalescing` / `ServeWhileStale`)
through a nil `be.CdnPolicy` pointer.  When `CachePolicy` is present the Go
code allocates a fresh `BackendServiceCdnPolicy` whose other fields are the
Go zero values. -/
def applyCDNSettings (sp : ServicePort) (be : BackendService) :
    Option BackendService :=
  match sp.Cdn with
  | none => none
  | some cdnConfig =>
    let be := { be with EnableCDN := cdnConfig.Enabled }
    let be :=
      match cdnConfig.CachePolicy with
      | none => be
      | some cacheKeyPolicy =>
        let ckp : CacheKeyPolicy :=
          { IncludeHost := cacheKeyPolicy.IncludeHost
            IncludeProtocol := cacheKeyPolicy.IncludeProtocol
            IncludeQueryString := cacheKeyPolicy.IncludeQueryString
            QueryStringBlacklist := cacheKeyPolicy.QueryStringBlacklist
            QueryStringWhitelist := cacheKeyPolicy.QueryStringWhitelist }
        { be with CdnPolicy := some { CacheKeyPolicy := some ckp } }
    match cdnConfig.CacheMode with
    | some m =>
      match be.CdnPolicy with
      | none => none
      | some p =>
        let be := { be with CdnPolicy := some { p with CacheMode := m } }
        applyCDNSettingsTail cdnConfig be
    | none => applyCDNSettingsTail cdnConfig be

/-- Embeds `EnsureCDN` from `cdn.go`.  Pure embedding: the boolean result is paired
with the (possibly updated) backend service; `none` models a panic inside
`applyCDNSettings`. -/
def EnsureCDN (sp : ServicePort) (be : BackendService) :
    Option (Bool × BackendService) :=
  match sp.Cdn with
  | none => some (false, be)
  | some _ =>
    match applyCDNSettings sp {} with
    | none => none
    | some beTemp =>
      if (beTemp.CdnPolicy ≠ none ∧ beTemp.CdnPolicy ≠ be.CdnPolicy) ∨
          beTemp.EnableCDN ≠ be.EnableCDN then
        match applyCDNSettings sp be with
        | none => none
        | some be' => some (true, be')
      else
        some (false, be)

/-! ## Composite wrappers (handwritten functions, `pkg/composite`) -/

/-- Embeds `meta.Key`: name plus optional zone / region ("" = unset). -/
structure MetaKey where
  name : String := ""
  zone : String := ""
  region : String := ""
  deriving DecidableEq, Repr

/-- Embeds `meta.Key.Type()`: zonal if a zone is set, else regional if a
region is set, else global. -/
def MetaKey.keyType (k : MetaKey) : KeyKind :=
  if k.zone ≠ "" then .zonal
  else if k.region ≠ "" then .regional
  else .global_

/-- Embeds `meta.Key.Valid()` (k8s-cloud-provider): a key with both zone and
region set is invalid.  The library also checks the location strings against
a format regexp; that check is abstracted as accepting, since no claim
depends on location syntax. -/
def MetaKey.valid (k : MetaKey) : Bool :=
  !(k.zone ≠ "" && k.region ≠ "")

/-- Embeds `meta.GlobalKey`. -/
def MetaKey.globalKey (name : String) : MetaKey :=
  { name := name }

/-- Embeds `composite.TargetHttpsProxy`, narrowed to the fields the
handwritten setters read (`Name`, `Version`). -/
structure TargetHttpsProxy where
  Name : String := ""
  Version : Version := .ga
  deriving DecidableEq, Repr

/-- Embeds `composite.TargetHttpProxy`, narrowed to `Name` and `Version`. -/
structure TargetHttpProxy where
  Name : String := ""
  Version : Version := .ga
  deriving DecidableEq, Repr

/-- Embeds `composite.ForwardingRule`, narrowed to `Name` and `Version`. -/
structure ForwardingRule where
  Name : String := ""
  Version : Version := .ga
  deriving DecidableEq, Repr

/-- Embeds a GA `compute.SignedUrlKey` payload. -/
structure SignedUrlKeyGA where
  KeyName : String := ""
  KeyValue : String := ""
  deriving DecidableEq, Repr

/-- Embeds `composite.SignedUrlKey`, narrowed to the payload fields. -/
structure SignedUrlKey where
  KeyName : String := ""
  KeyValue : String := ""
  deriving DecidableEq, Repr

/-- Embeds an alpha `computealpha.SignedUrlKey` payload. -/
structure SignedUrlKeyAlpha where
  KeyName : String := ""
  KeyValue : String := ""
  deriving DecidableEq, Repr

/-- Embeds a beta `computebeta.SignedUrlKey` payload. -/
structure SignedUrlKeyBeta where
  KeyName : String := ""
  KeyValue : String := ""
  deriving DecidableEq, Repr

/-- Embeds `SignedUrlKey.ToGA`: the composite conversion copies the payload
into the GA representation; in the model the copy cannot fail, so the
`error` side of the Go signature is never taken. -/
def SignedUrlKey.toGA (k : SignedUrlKey) : Except GoErr SignedUrlKeyGA :=
  .ok { KeyName := k.KeyName, KeyValue := k.KeyValue }

/-- Embeds `SignedUrlKey.ToAlpha` (same remark as `toGA`). -/
def SignedUrlKey.toAlpha (k : SignedUrlKey) : Except GoErr SignedUrlKeyAlpha :=
  .ok { KeyName := k.KeyName, KeyValue := k.KeyValue }

/-- Embeds `SignedUrlKey.ToBeta` (same remark as `toGA`). -/
def SignedUrlKey.toBeta (k : SignedUrlKey) : Except GoErr SignedUrlKeyBeta :=
  .ok { KeyName := k.KeyName, KeyValue := k.KeyValue }

/-- Describes one generated-client compute API call, identifying the
service, the API version, the scope (regional vs. global method family) and
the request payload (the versioned reference / request type is identified
by the `Version` argument). -/
inductive ApiCall where
  | targetHttpsProxiesSetUrlMap (v : Version) (regional : Bool) (urlMap : String)
  | targetHttpsProxiesSetSslCertificates (v : Version) (regional : Bool) (certs : List String)
  | targetHttpsProxiesSetSslPolicy (v : Version) (policy : String)
  | targetHttpProxiesSetUrlMap (v : Version) (regional : Bool) (urlMap : String)
  | forwardingRulesSetTarget (v : Version) (regional : Bool) (target : String)
  | backendServicesSetSecurityPolicy (v : Version) (ref : Option String)
  | gaBackendServicesAddSignedUrlKey (projectID : String) (name : String) (k : SignedUrlKeyGA)
  | gaBackendServicesDeleteSignedUrlKey (projectID : String) (name : String) (keyName : String)
  deriving DecidableEq, Repr

/-- The API version a call descriptor targets. -/
def ApiCall.version : ApiCall → Version
  | .targetHttpsProxiesSetUrlMap v _ _ => v
  | .targetHttpsProxiesSetSslCertificates v _ _ => v
  | .targetHttpsProxiesSetSslPolicy v _ => v
  | .targetHttpProxiesSetUrlMap v _ _ => v
  | .forwardingRulesSetTarget v _ _ => v
  | .backendServicesSetSecurityPolicy v _ => v
  | .gaBackendServicesAddSignedUrlKey _ _ _ => .ga
  | .gaBackendServicesDeleteSignedUrlKey _ _ _ => .ga

/-- Whether a call descriptor uses a regional method family.  The hacked
signed-URL-key calls go through `g.s.GA.BackendServices` with only
`key.Name`, i.e. the global method family. -/
def ApiCall.regionalScope : ApiCall → Bool
  | .targetHttpsProxiesSetUrlMap _ r _ => r
  | .targetHttpsProxiesSetSslCertificates _ r _ => r
  | .targetHttpsProxiesSetSslPolicy _ _ => false
  | .targetHttpProxiesSetUrlMap _ r _ => r
  | .forwardingRulesSetTarget _ r _ => r
  | .backendServicesSetSecurityPolicy _ _ => false
  | .gaBackendServicesAddSignedUrlKey _ _ _ => false
  | .gaBackendServicesDeleteSignedUrlKey _ _ _ => false

/-- One observable step of a wrapper operation. -/
inductive Step where
  | sdkCall (c : ApiCall)
  | rateLimiterAccept (operation : String)
  | waitForCompletion
  deriving DecidableEq, Repr

/-- Environment supplying the outcomes of the external dependencies:
the generated client's call results, the project ID, the rate limiter's
acceptance and the operation-completion wait (the latter two only reached
by the hacked signed-URL-key methods). -/
structure SdkEnv where
  call : ApiCall → Option GoErr
  projectID : String := ""
  rateLimiterAccept : Option GoErr := none
  waitForCompletion : Option GoErr := none

/-- Modelled from the spec: `metrics.MetricContext.Observe`
(`pkg/composite/metrics`, not among the shown files) records the call
metric and returns the error unchanged — "Errors are pass-through returns
from the wrapped SDK calls, annotated with log lines". -/
def Observe (err : Option GoErr) : Option GoErr := err

/-- Issues one generated-client call and observes its result: the common
shape `return mc.Observe(gceCloud.Compute()...Method(ctx, key, ref))` of
the handwritten setters. -/
def issueCall (env : SdkEnv) (c : ApiCall) : List Step × Option GoErr :=
  ([.sdkCall c], Observe (env.call c))

/-- Embeds `SetUrlMapForTargetHttpsProxy`: switch on the proxy's version,
then on the key's type (Regional vs. default), issuing the matching
generated `SetUrlMap` method with the link wrapped in that version's
`UrlMapReference`.  The key's name is first overwritten with the proxy's. -/
def SetUrlMapForTargetHttpsProxy (env : SdkEnv) (key : MetaKey)
    (targetHttpsProxy : TargetHttpsProxy) (urlMapLink : String) :
    List Step × Option GoErr :=
  let key := { key with name := targetHttpsProxy.Name }
  match targetHttpsProxy.Version with
  | .alpha =>
    match key.keyType with
    | .regional => issueCall env (.targetHttpsProxiesSetUrlMap .alpha true urlMapLink)
    | _ => issueCall env (.targetHttpsProxiesSetUrlMap .alpha false urlMapLink)
  | .beta =>
    match key.keyType with
    | .regional => issueCall env (.targetHttpsProxiesSetUrlMap .beta true urlMapLink)
    | _ => issueCall env (.targetHttpsProxiesSetUrlMap .beta false urlMapLink)
  | .ga =>
    match key.keyType with
    | .regional => issueCall env (.targetHttpsProxiesSetUrlMap .ga true urlMapLink)
    | _ => issueCall env (.targetHttpsProxiesSetUrlMap .ga false urlMapLink)

/-- Embeds `SetSslCertificateForTargetHttpsProxy`: same dispatch, issuing
`SetSslCertificates` with the URL list wrapped in that version's (regional
or global) `SetSslCertificatesRequest`. -/
def SetSslCertificateForTargetHttpsProxy (env : SdkEnv) (key : MetaKey)
    (targetHttpsProxy : TargetHttpsProxy) (sslCertURLs : List String) :
    List Step × Option GoErr :=
  let key := { key with name := targetHttpsProxy.Name }
  match targetHttpsProxy.Version with
  | .alpha =>
    match key.keyType with
    | .regional => issueCall env (.targetHttpsProxiesSetSslCertificates .alpha true sslCertURLs)
    | _ => issueCall env (.targetHttpsProxiesSetSslCertificates .alpha false sslCertURLs)
  | .beta =>
    match key.keyType with
    | .regional => issueCall env (.targetHttpsProxiesSetSslCertificates .beta true sslCertURLs)
    | _ => issueCall env (.targetHttpsProxiesSetSslCertificates .beta false sslCertURLs)
  | .ga =>
    match key.keyType with
    | .regional => issueCall env (.targetHttpsProxiesSetSslCertificates .ga true sslCertURLs)
    | _ => issueCall env (.targetHttpsProxiesSetSslCertificates .ga false sslCertURLs)

/-- Embeds `SetSslPolicyForTargetHttpsProxy`: for a Regional key every
version branch returns a locally constructed error without issuing a call;
otherwise the version's `SetSslPolicy` method is issued with the link
wrapped in that version's `SslPolicyReference`. -/
def SetSslPolicyForTargetHttpsProxy (env : SdkEnv) (key : MetaKey)
    (targetHttpsProxy : TargetHttpsProxy) (SslPolicyLink : String) :
    List Step × Option GoErr :=
  let key := { key with name := targetHttpsProxy.Name }
  match targetHttpsProxy.Version with
  | .alpha =>
    match key.keyType with
    | .regional => ([], some "SetSslPolicy() is not supported for regional Target Https Proxies")
    | _ => issueCall env (.targetHttpsProxiesSetSslPolicy .alpha SslPolicyLink)
  | .beta =>
    match key.keyType with
    | .regional => ([], some "SetSslPolicy() is not supported for regional Target Https Proxies")
    | _ => issueCall env (.targetHttpsProxiesSetSslPolicy .beta SslPolicyLink)
  | .ga =>
    match key.keyType with
    | .regional => ([], some "SetSslPolicy() is not supported for regional Target Https Proxies")
    | _ => issueCall env (.targetHttpsProxiesSetSslPolicy .ga SslPolicyLink)

/-- Embeds `SetUrlMapForTargetHttpProxy`: same version/scope dispatch as the
https variant, over the `TargetHttpProxies` method families. -/
def SetUrlMapForTargetHttpProxy (env : SdkEnv) (key : MetaKey)
    (targetHttpProxy : TargetHttpProxy) (urlMapLink : String) :
    List Step × Option GoErr :=
  let key := { key with name := targetHttpProxy.Name }
  match targetHttpProxy.Version with
  | .alpha =>
    match key.keyType with
    | .regional => issueCall env (.targetHttpProxiesSetUrlMap .alpha true urlMapLink)
    | _ => issueCall env (.targetHttpProxiesSetUrlMap .alpha false urlMapLink)
  | .beta =>
    match key.keyType with
    | .regional => issueCall env (.targetHttpProxiesSetUrlMap .beta true urlMapLink)
    | _ => issueCall env (.targetHttpProxiesSetUrlMap .beta false urlMapLink)
  | .ga =>
    match key.keyType with
    | .regional => issueCall env (.targetHttpProxiesSetUrlMap .ga true urlMapLink)
    | _ => issueCall env (.targetHttpProxiesSetUrlMap .ga false urlMapLink)

/-- Embeds `SetProxyForForwardingRule`: dispatch over the forwarding rule's
version and the key's type to `ForwardingRules` (regional) or
`GlobalForwardingRules` `SetTarget`, the link wrapped in that version's
`TargetReference`. -/
def SetProxyForForwardingRule (env : SdkEnv) (key : MetaKey)
    (forwardingRule : ForwardingRule) (targetProxyLink : String) :
    List Step × Option GoErr :=
  let key := { key with name := forwardingRule.Name }
  match forwardingRule.Version with
  | .alpha =>
    match key.keyType with
    | .regional => issueCall env (.forwardingRulesSetTarget .alpha true targetProxyLink)
    | _ => issueCall env (.forwardingRulesSetTarget .alpha false targetProxyLink)
  | .beta =>
    match key.keyType with
    | .regional => issueCall env (.forwardingRulesSetTarget .beta true targetProxyLink)
    | _ => issueCall env (.forwardingRulesSetTarget .beta false targetProxyLink)
  | .ga =>
    match key.keyType with
    | .regional => issueCall env (.forwardingRulesSetTarget .ga true targetProxyLink)
    | _ => issueCall env (.forwardingRulesSetTarget .ga false targetProxyLink)

/-- Embeds `cloud.SelfLink` for the security-policy resource, as a plain
URL string built from version, project and resource name. -/
def selfLinkSecurityPolicy (v : Version) (projectID : String) (name : String) : String :=
  let ver := match v with
    | .alpha => "alpha"
    | .beta => "beta"
    | .ga => "v1"
  "https://www.googleapis.com/compute/" ++ ver ++ "/projects/" ++ projectID ++
    "/global/securityPolicies/" ++ name

/-- Embeds `SetSecurityPolicy`: non-global backend services are rejected
with a locally constructed error; otherwise the version's
`SetSecurityPolicy` method is issued with a `SecurityPolicyReference`
holding the self-link, or a nil reference when the policy name is empty. -/
def SetSecurityPolicy (env : SdkEnv) (backendService : BackendService)
    (securityPolicy : String) : List Step × Option GoErr :=
  if backendService.Scope ≠ .global_ then
    ([], some ("cloud armor security policies not supported for backend service " ++
      backendService.Name))
  else
    match backendService.Version with
    | .alpha =>
      let ref := if securityPolicy ≠ "" then
        some (selfLinkSecurityPolicy .alpha env.projectID securityPolicy) else none
      issueCall env (.backendServicesSetSecurityPolicy .alpha ref)
    | .beta =>
      let ref := if securityPolicy ≠ "" then
        some (selfLinkSecurityPolicy .beta env.projectID securityPolicy) else none
      issueCall env (.backendServicesSetSecurityPolicy .beta ref)
    | .ga =>
      let ref := if securityPolicy ≠ "" then
        some (selfLinkSecurityPolicy .ga env.projectID securityPolicy) else none
      issueCall env (.backendServicesSetSecurityPolicy .ga ref)

/-- Embeds `gceBackendServices.AddSignedUrlKey` (the HACK replacement for
the missing generated method): convert the key to GA, validate the meta
key, route the project, accept from the rate limiter, issue the GA
`BackendServices.AddSignedUrlKey` call, then wait for completion of the
returned operation.  Each externally visible step is recorded. -/
def gceBackendServicesAddSignedUrlKey (env : SdkEnv) (key : MetaKey)
    (signedUrlKey : SignedUrlKey) : List Step × Option GoErr :=
  match signedUrlKey.toGA with
  | .error e => ([], some e)
  | .ok arg0 =>
    if !key.valid then
      ([], some "invalid GCE key")
    else
      let projectID := env.projectID
      match env.rateLimiterAccept with
      | some e => ([.rateLimiterAccept "AddSignedUrlKey"], some e)
      | none =>
        let c := ApiCall.gaBackendServicesAddSignedUrlKey projectID key.name arg0
        match env.call c with
        | some e => ([.rateLimiterAccept "AddSignedUrlKey", .sdkCall c], some e)
        | none =>
          ([.rateLimiterAccept "AddSignedUrlKey", .sdkCall c, .waitForCompletion],
            env.waitForCompletion)

/-- Embeds `gceBackendServices.DeleteSignedUrlKey`: validate the meta key,
route the project, accept from the rate limiter, issue the GA
`BackendServices.DeleteSignedUrlKey` call, then wait for completion. -/
def gceBackendServicesDeleteSignedUrlKey (env : SdkEnv) (key : MetaKey)
    (keyName : String) : List Step × Option GoErr :=
  if !key.valid then
    ([], some "invalid GCE key")
  else
    let projectID := env.projectID
    match env.rateLimiterAccept with
    | some e => ([.rateLimiterAccept "DeleteSignedUrlKey"], some e)
    | none =>
      let c := ApiCall.gaBackendServicesDeleteSignedUrlKey projectID key.name keyName
      match env.call c with
      | some e => ([.rateLimiterAccept "DeleteSignedUrlKey", .sdkCall c], some e)
      | none =>
        ([.rateLimiterAccept "DeleteSignedUrlKey", .sdkCall c, .waitForCompletion],
          env.waitForCompletion)

/-- Wraps a hacked-method result in `mc.Observe` (error pass-through). -/
def observeHack (r : List Step × Option GoErr) : List Step × Option GoErr :=
  (r.1, Observe r.2)

/-- Embeds the composite-level `AddSignedUrlKey`: switch on the backend
service's version (converting the key to that version, whose only effect in
the model is a possible — never occurring — conversion error), then on the
key's type; every branch calls the hacked GA method
`hackGceCloud(...).AddSignedUrlKey` (the versioned generated calls are
commented out in the source). -/
def AddSignedUrlKey (env : SdkEnv) (key : MetaKey)
    (backendService : BackendService) (signedUrlKey : SignedUrlKey) :
    List Step × Option GoErr :=
  match backendService.Version with
  | .alpha =>
    match signedUrlKey.toAlpha with
    | .error e => ([], some e)
    | .ok _ =>
      match key.keyType with
      | .regional => observeHack (gceBackendServicesAddSignedUrlKey env key signedUrlKey)
      | _ => observeHack (gceBackendServicesAddSignedUrlKey env key signedUrlKey)
  | .beta =>
    match signedUrlKey.toBeta with
    | .error e => ([], some e)
    | .ok _ =>
      match key.keyType with
      | .regional => observeHack (gceBackendServicesAddSignedUrlKey env key signedUrlKey)
      | _ => observeHack (gceBackendServicesAddSignedUrlKey env key signedUrlKey)
  | .ga =>
    match signedUrlKey.toGA with
    | .error e => ([], some e)
    | .ok _ =>
      match key.keyType with
      | .regional => observeHack (gceBackendServicesAddSignedUrlKey env key signedUrlKey)
      | _ => observeHack (gceBackendServicesAddSignedUrlKey env key signedUrlKey)

/-- Embeds the composite-level `DeleteSignedUrlKey`: switch on the backend
service's version, then on the key's type; every branch calls the hacked GA
method `hackGceCloud(...).DeleteSignedUrlKey`. -/
def DeleteSignedUrlKey (env : SdkEnv) (key : MetaKey)
    (backendService : BackendService) (keyName : String) :
    List Step × Option GoErr :=
  match backendService.Version with
  | .alpha =>
    match key.keyType with
    | .regional => observeHack (gceBackendServicesDeleteSignedUrlKey env key keyName)
    | _ => observeHack (gceBackendServicesDeleteSignedUrlKey env key keyName)
  | .beta =>
    match key.keyType with
    | .regional => observeHack (gceBackendServicesDeleteSignedUrlKey env key keyName)
    | _ => observeHack (gceBackendServicesDeleteSignedUrlKey env key keyName)
  | .ga =>
    match key.keyType with
    | .regional => observeHack (gceBackendServicesDeleteSignedUrlKey env key keyName)
    | _ => observeHack (gceBackendServicesDeleteSignedUrlKey env key keyName)

/-! ## L4 ILB metrics (`pkg/metrics`) -/

/-- Modelled from the spec: `metrics.L4ILBServiceState` — "Metrics counters
(`L4ILBServiceState`) are simple boolean-state structs aggregated by
counting"; the three fields are those the test constructor
`newL4ILBServiceState` populates. -/
structure L4ILBServiceState where
  EnabledGlobalAccess : Bool
  EnabledCustomSubnet : Bool
  InSuccess : Bool
  deriving DecidableEq, Repr

/-- Embeds the test helper `newL4ILBServiceState`
(`l4metrics_test.go`). -/
def newL4ILBServiceState (globalAccess customSubnet inSuccess : Bool) :
    L4ILBServiceState :=
  { EnabledGlobalAccess := globalAccess
    EnabledCustomSubnet := customSubnet
    InSuccess := inSuccess }

/-- Embeds the `feature` enumeration, narrowed to the five L4 ILB features
the test expects `computeL4ILBMetrics` to report. -/
inductive Feature where
  | l4ILBService
  | l4ILBGlobalAccess
  | l4ILBCustomSubnet
  | l4ILBInSuccess
  | l4ILBInError
  deriving DecidableEq, Repr

/-- Modelled from the spec: `metrics.ControllerMetrics`
(`pkg/metrics/metrics.go`, not among the shown files) keeps a map from
service key to `L4ILBServiceState`; embedded as an association list
(insertion order models Go map contents, which counting does not depend
on). -/
structure ControllerMetrics where
  l4ILBServiceMap : List (String × L4ILBServiceState)
  deriving DecidableEq, Repr

/-- Modelled from the spec: `metrics.NewControllerMetrics` returns a
controller-metrics collector with an empty service map. -/
def NewControllerMetrics : ControllerMetrics :=
  { l4ILBServiceMap := [] }

/-- Map update for the association list: replace the binding of an existing
key, otherwise append the new binding. -/
def setAssoc (m : List (String × L4ILBServiceState)) (key : String)
    (state : L4ILBServiceState) : List (String × L4ILBServiceState) :=
  match m with
  | [] => [(key, state)]
  | (k, v) :: rest =>
    if k = key then (k, state) :: rest
    else (k, v) :: setAssoc rest key state

/-- Modelled from the spec: `ControllerMetrics.SetL4ILBService` registers
(or overwrites) the state of one L4 ILB service under its key, as the test
`newMetrics.SetL4ILBService(string(i), serviceState)` exercises. -/
def SetL4ILBService (m : ControllerMetrics) (key : String)
    (state : L4ILBServiceState) : ControllerMetrics :=
  { l4ILBServiceMap := setAssoc m.l4ILBServiceMap key state }

/-- The five L4 ILB counts, one field per feature: the embedding of the
`map[feature]int` that `computeL4ILBMetrics` returns (the test expects it
to hold exactly these five features). -/
structure L4ILBMetricsCounts where
  l4ILBService : Nat
  l4ILBGlobalAccess : Nat
  l4ILBCustomSubnet : Nat
  l4ILBInSuccess : Nat
  l4ILBInError : Nat
  deriving DecidableEq, Repr

/-- Modelled from the spec: "the aggregation counts match expected tallies
for given input states" — `computeL4ILBMetrics` walks the service map and,
per state, increments the total count, the global-access count when
`EnabledGlobalAccess`, the custom-subnet count when `EnabledCustomSubnet`,
and the success (else error) count according to `InSuccess`. -/
def computeL4ILBMetrics (m : ControllerMetrics) : L4ILBMetricsCounts :=
  let states := m.l4ILBServiceMap.map Prod.snd
  { l4ILBService := states.length
    l4ILBGlobalAccess := states.countP (fun s => s.EnabledGlobalAccess)
    l4ILBCustomSubnet := states.countP (fun s => s.EnabledCustomSubnet)
    l4ILBInSuccess := states.countP (fun s => s.InSuccess)
    l4ILBInError := states.countP (fun s => !s.InSuccess) }

/-! ## e2e sandbox (`Sandbox.Ensure`) -/

/-- Embeds `fuzz.ValidatorEnv` opaquely: the claims only need its
identity. -/
structure ValidatorEnv where
  envId : Nat := 0
  deriving DecidableEq, Repr

/-- Embeds the e2e `Sandbox`, narrowed to the fields `Ensure` touches. -/
structure Sandbox where
  Namespace : String := ""
  ValidatorEnv : Option ValidatorEnv := none
  deriving DecidableEq, Repr

/-- Environment supplying the outcomes of the two external calls
`Sandbox.Ensure` makes: namespace creation (`some` = the returned error's
message) and validator-environment construction. -/
structure SandboxEnv where
  createNamespace : Option GoErr := none
  newDefaultValidatorEnv : Except GoErr ValidatorEnv := .ok {}

/-- Result of `Sandbox.Ensure`: the updated sandbox, the returned error,
and whether the validator-environment construction was reached. -/
structure EnsureResult where
  sandbox : Sandbox
  err : Option GoErr
  validatorBuilt : Bool
  deriving DecidableEq, Repr

/-- Embeds `strings.HasSuffix`: whether `suffix` is a suffix of `s`,
computed over the character lists so that concrete instances evaluate in
the kernel. -/
def hasSuffix (s suffix : String) : Bool :=
  suffix.data.isSuffixOf s.data

/-- Embeds `Sandbox.Ensure` (e2e framework): create the namespace; on a
creation error not ending in "already exists", return it at once; otherwise
build the validator environment, returning its error or nil. -/
def Sandbox.Ensure (env : SandboxEnv) (s : Sandbox) : EnsureResult :=
  match env.createNamespace with
  | some e =>
    if !(hasSuffix e "already exists") then
      { sandbox := s, err := some e, validatorBuilt := false }
    else
      match env.newDefaultValidatorEnv with
      | .error e2 => { sandbox := s, err := some e2, validatorBuilt := true }
      | .ok v =>
        { sandbox := { s with ValidatorEnv := some v }, err := none, validatorBuilt := true }
  | none =>
    match env.newDefaultValidatorEnv with
    | .error e2 => { sandbox := s, err := some e2, validatorBuilt := true }
    | .ok v =>
      { sandbox := { s with ValidatorEnv := some v }, err := none, validatorBuilt := true }

/-! ## Derived definitions used by the theorem statements -/

/-- Desired cache-key policy built by `applyCDNSettings` from the config. -/
def desiredCacheKeyPolicy (k : CacheKeyPolicyConfig) : CacheKeyPolicy :=
  { IncludeHost := k.IncludeHost
    IncludeProtocol := k.IncludeProtocol
    IncludeQueryString := k.IncludeQueryString
    QueryStringBlacklist := k.QueryStringBlacklist
    QueryStringWhitelist := k.QueryStringWhitelist }

/-- Desired CDN policy built by `applyCDNSettings` when `CachePolicy` is
present: the fresh policy holds the cache-key fields and the optional
values, with Go zero values for everything else. -/
def desiredCdnPolicy (cfg : CDNConfig) (k : CacheKeyPolicyConfig) :
    BackendServiceCdnPolicy :=
  { CacheKeyPolicy := some (desiredCacheKeyPolicy k)
    CacheMode := cfg.CacheMode.getD ""
    RequestCoalescing := cfg.RequestCoalescing.getD false
    ServeWhileStale := cfg.ServeWhileStaleSec.getD 0
    SignedUrlCacheMaxAgeSec := 0 }

/-- The desired CDN policy as `EnsureCDN`'s temporary backend service
carries it: present exactly when the config specifies a `CachePolicy`. -/
def desiredCdnPolicyOpt (cfg : CDNConfig) : Option BackendServiceCdnPolicy :=
  cfg.CachePolicy.map (desiredCdnPolicy cfg)

/-- The spec's update condition for `EnsureCDN`: the desired `EnableCDN`
differs from the current one, or the desired CdnPolicy is specified and
differs (deep equality) from the current one. -/
def cdnUpdateNeeded (cfg : CDNConfig) (be : BackendService) : Prop :=
  (desiredCdnPolicyOpt cfg ≠ none ∧ desiredCdnPolicyOpt cfg ≠ be.CdnPolicy) ∨
    cfg.Enabled ≠ be.EnableCDN

/-- Decidability of the update condition (needed to evaluate witnesses). -/
instance (cfg : CDNConfig) (be : BackendService) :
    Decidable (cdnUpdateNeeded cfg be) := by
  unfold cdnUpdateNeeded; infer_instance

/-- No-fault precondition on a CDN config: `EnsureCDN`'s temporary backend
service is processed without a nil `CdnPolicy` dereference iff the config
has a `CachePolicy`, or none of the three optional fields. -/
def cdnNoFault (cfg : CDNConfig) : Bool :=
  cfg.CachePolicy.isSome ||
    (cfg.CacheMode.isNone && cfg.RequestCoalescing.isNone &&
      cfg.ServeWhileStaleSec.isNone)

/-- No-fault precondition on a service port: no Cdn section, or a Cdn
section satisfying `cdnNoFault`. -/
def servicePortNoFault (sp : ServicePort) : Bool :=
  match sp.Cdn with
  | none => true
  | some cfg => cdnNoFault cfg

/-- The generated-client calls a step trace issues. -/
def issuedCalls (steps : List Step) : List ApiCall :=
  steps.filterMap (fun s =>
    match s with
    | .sdkCall c => some c
    | _ => none)

/-- Whether a step trace consists of SDK calls only (no rate-limiter
acceptance, no operation-completion waiting). -/
def onlySdkCalls (steps : List Step) : Bool :=
  steps.all (fun s =>
    match s with
    | .sdkCall _ => true
    | _ => false)

/-! ## Concrete inputs for counterexamples and witnesses -/

/-- Service port whose CDN config enables CDN with a `CachePolicy` but no
`CacheMode`. -/
def spC2 : ServicePort :=
  { Cdn := some { Enabled := true, CachePolicy := some {} } }

/-- Backend service with pre-existing CDN policy fields that the
configuration of `spC2` does not mention. -/
def beC2 : BackendService :=
  { CdnPolicy := some { CacheMode := "CACHE_ALL_STATIC", SignedUrlCacheMaxAgeSec := 7 } }

/-- SDK environment in which every generated-client call, the rate limiter
and the operation wait succeed. -/
def envOk : SdkEnv :=
  { call := fun _ => none, projectID := "proj" }

/-- A regional meta key. -/
def keyRegionalCex : MetaKey :=
  { name := "bs-1", region := "us-east1" }

/-- A GA-versioned target https proxy. -/
def proxyGACex : TargetHttpsProxy :=
  { Name := "proxy-1", Version := .ga }

/-- An alpha-versioned backend service (global scope). -/
def bsAlphaCex : BackendService :=
  { Name := "bs-1", Version := .alpha }

/-- A signed-URL-key payload. -/
def sukCex : SignedUrlKey :=
  { KeyName := "key-1", KeyValue := "secret" }

/-! ## Lemmas: `applyCDNSettings` characterization -/

lemma applyCDN_cp_some (cfg : CDNConfig) (be : BackendService)
    (k : CacheKeyPolicyConfig) (h : cfg.CachePolicy = some k) :
    applyCDNSettings { Cdn := some cfg } be =
      some { be with
        EnableCDN := cfg.Enabled,
        CdnPolicy := some (desiredCdnPolicy cfg k) } := by
  rcases cfg with ⟨e, cp, cm, rc, sws⟩
  cases h
  rcases cm with _ | m <;> rcases rc with _ | r <;> rcases sws with _ | w <;>
    simp [applyCDNSettings, applyCDNSettingsTail, desiredCdnPolicy,
      desiredCacheKeyPolicy, Option.getD]

lemma applyCDN_cp_none_opts_none (cfg : CDNConfig) (be : BackendService)
    (hcp : cfg.CachePolicy = none) (hcm : cfg.CacheMode = none)
    (hrc : cfg.RequestCoalescing = none) (hsws : cfg.ServeWhileStaleSec = none) :
    applyCDNSettings { Cdn := some cfg } be =
      some { be with EnableCDN := cfg.Enabled } := by
  rcases cfg with ⟨e, cp, cm, rc, sws⟩
  cases hcp; cases hcm; cases hrc; cases hsws
  simp [applyCDNSettings, applyCDNSettingsTail]

lemma applyCDN_cp_none_pol_some (cfg : CDNConfig) (be : BackendService)
    (p : BackendServiceCdnPolicy) (hcp : cfg.CachePolicy = none)
    (hbe : be.CdnPolicy = some p) :
    applyCDNSettings { Cdn := some cfg } be =
      some { be with
        EnableCDN := cfg.Enabled,
        CdnPolicy := some { p with
          CacheMode := cfg.CacheMode.getD p.CacheMode,
          RequestCoalescing := cfg.RequestCoalescing.getD p.RequestCoalescing,
          ServeWhileStale := cfg.ServeWhileStaleSec.getD p.ServeWhileStale } } := by
  rcases cfg with ⟨e, cp, cm, rc, sws⟩
  cases hcp
  rcases cm with _ | m <;> rcases rc with _ | r <;> rcases sws with _ | w <;>
    simp [applyCDNSettings, applyCDNSettingsTail, hbe, Option.getD]

lemma applyCDN_fault (cfg : CDNConfig) (be : BackendService)
    (hcp : cfg.CachePolicy = none) (hbe : be.CdnPolicy = none)
    (h : cfg.CacheMode ≠ none ∨ cfg.RequestCoalescing ≠ none ∨
      cfg.ServeWhileStaleSec ≠ none) :
    applyCDNSettings { Cdn := some cfg } be = none := by
  rcases cfg with ⟨e, cp, cm, rc, sws⟩
  cases hcp
  rcases cm with _ | m <;> rcases rc with _ | r <;> rcases sws with _ | w <;>
    simp_all [applyCDNSettings, applyCDNSettingsTail, hbe]

/-! ## Theorems for the claims about `cdn.go` -/

/-- C2 counterexample: `applyCDNSettings` does not leave every field absent
from the configuration unchanged.  For `spC2` (CachePolicy specified,
CacheMode absent) applied to `beC2`, the pre-existing `CdnPolicy.CacheMode`
"CACHE_ALL_STATIC" is cleared to "" and `SignedUrlCacheMaxAgeSec` 7 is
cleared to 0. -/
theorem applyCDNSettings_clears_unspecified_cex :
    (spC2.Cdn.bind CDNConfig.CacheMode = none) ∧
    ((applyCDNSettings spC2 beC2).bind
      (fun b => b.CdnPolicy.map BackendServiceCdnPolicy.CacheMode) = some "") ∧
    (beC2.CdnPolicy.map BackendServiceCdnPolicy.CacheMode = some "CACHE_ALL_STATIC") ∧
    ((applyCDNSettings spC2 beC2).bind
      (fun b => b.CdnPolicy.map BackendServiceCdnPolicy.SignedUrlCacheMaxAgeSec) = some 0) ∧
    (beC2.CdnPolicy.map BackendServiceCdnPolicy.SignedUrlCacheMaxAgeSec = some 7) :=
  ⟨rfl, rfl, rfl, rfl, rfl⟩

/-- C2 (amended): for a service port with a Cdn section, `applyCDNSettings`
writes `EnableCDN` from the config and touches no field of the backend
service other than `EnableCDN` and `CdnPolicy`; when `CachePolicy` is
present the whole `CdnPolicy` is replaced by the policy built from the
config (clearing fields the config does not specify), and when
`CachePolicy` is absent the optional values are written into the existing
policy, leaving its other fields unchanged. -/
theorem applyCDNSettings_field_effects (cfg : CDNConfig) (be : BackendService) :
    (∀ k, cfg.CachePolicy = some k →
      applyCDNSettings { Cdn := some cfg } be =
        some { be with
          EnableCDN := cfg.Enabled,
          CdnPolicy := some (desiredCdnPolicy cfg k) }) ∧
    (∀ p, cfg.CachePolicy = none → be.CdnPolicy = some p →
      applyCDNSettings { Cdn := some cfg } be =
        some { be with
          EnableCDN := cfg.Enabled,
          CdnPolicy := some { p with
            CacheMode := cfg.CacheMode.getD p.CacheMode,
            RequestCoalescing := cfg.RequestCoalescing.getD p.RequestCoalescing,
            ServeWhileStale := cfg.ServeWhileStaleSec.getD p.ServeWhileStale } }) :=
  ⟨fun k h => applyCDN_cp_some cfg be k h,
   fun p h1 h2 => applyCDN_cp_none_pol_some cfg be p h1 h2⟩

/-- C2 witness: the amended theorem evaluated at `spC2` and `beC2`. -/
theorem applyCDNSettings_field_effects_witness :
    applyCDNSettings spC2 beC2 =
      some { beC2 with
        EnableCDN := true,
        CdnPolicy := some (desiredCdnPolicy
          { Enabled := true, CachePolicy := some {} } {}) } :=
  (applyCDNSettings_field_effects
    { Enabled := true, CachePolicy := some {} } beC2).1 {} rfl

/-- C8: for a service port whose Cdn section has a nil `CachePolicy` and at
least one of `CacheMode`, `RequestCoalescing`, `ServeWhileStaleSec`
present, `EnsureCDN` dereferences a nil `CdnPolicy` on the fresh temporary
backend service (modelled as result `none`); when `CachePolicy` is present,
or all three optional fields are absent, `EnsureCDN` never faults. -/
theorem ensureCDN_fault_characterization (sp : ServicePort)
    (be : BackendService) (cfg : CDNConfig) (h : sp.Cdn = some cfg) :
    (cfg.CachePolicy = none ∧
      (cfg.CacheMode ≠ none ∨ cfg.RequestCoalescing ≠ none ∨
        cfg.ServeWhileStaleSec ≠ none) →
      EnsureCDN sp be = none) ∧
    (cfg.CachePolicy ≠ none ∨
      (cfg.CacheMode = none ∧ cfg.RequestCoalescing = none ∧
        cfg.ServeWhileStaleSec = none) →
      (EnsureCDN sp be).isSome = true) := by
  constructor
  · rintro ⟨hcp, hopts⟩
    have h1 : applyCDNSettings { Cdn := some cfg } ({} : BackendService) = none :=
      applyCDN_fault cfg {} hcp rfl hopts
    have hsp : sp = { Cdn := some cfg } := by
      rcases sp with ⟨c⟩; simp at h; rw [h]
    rw [hsp]
    simp [EnsureCDN, h1]
  · intro hnf
    have hsp : sp = { Cdn := some cfg } := by
      rcases sp with ⟨c⟩; simp at h; rw [h]
    rw [hsp]
    rcases hcp : cfg.CachePolicy with _ | k
    · rcases hnf with hne | ⟨hcm, hrc, hsws⟩
      · exact absurd hcp hne
      · have h1 := applyCDN_cp_none_opts_none cfg {} hcp hcm hrc hsws
        have h2 := applyCDN_cp_none_opts_none cfg be hcp hcm hrc hsws
        simp [EnsureCDN, h1, h2]
        split <;> simp
    · have h1 := applyCDN_cp_some cfg {} k hcp
      have h2 := applyCDN_cp_some cfg be k hcp
      simp [EnsureCDN, h1, h2]
      split <;> simp

/-- C8 witness: the fault side at a config with only `CacheMode` set, and
the no-fault side at a config with a `CachePolicy`. -/
theorem ensureCDN_fault_characterization_witness :
    (EnsureCDN { Cdn := some { Enabled := true, CacheMode := some "FORCE_CACHE_ALL" } } {}
      = none) ∧
    ((EnsureCDN { Cdn := some { Enabled := true, CachePolicy := some {} } } {}).isSome
      = true) :=
  ⟨(ensureCDN_fault_characterization _ {} _ rfl).1
      ⟨rfl, Or.inl (by decide)⟩,
   (ensureCDN_fault_characterization _ {} _ rfl).2
      (Or.inl (by decide))⟩

/-- C3 counterexample: the claim does not hold for every ServicePort with a
Cdn section — for a config with nil `CachePolicy` and `CacheMode` present,
`EnsureCDN` faults (nil `CdnPolicy` dereference on the fresh temporary
backend service, modelled as `none`) instead of returning a boolean and
updating or preserving the backend service. -/
theorem ensureCDN_faults_cex :
    EnsureCDN { Cdn := some { Enabled := true, CacheMode := some "FORCE_CACHE_ALL" } }
      ({} : BackendService) = none := rfl

/-- C3 (amended): `EnsureCDN` diffs desired against current CDN state.
With no Cdn section it returns false and leaves the backend service
unchanged.  With a Cdn section — restricted to the non-faulting configs,
i.e. `CachePolicy` present or none of the three optional fields set — it
returns true and applies the desired settings exactly when the desired
`EnableCDN` differs from the current one or the desired CdnPolicy is
specified and differs (deep equality) from the current one; otherwise it
returns false and leaves the backend service unchanged. -/
theorem ensureCDN_diff_and_update (sp : ServicePort) (be : BackendService) :
    (sp.Cdn = none → EnsureCDN sp be = some (false, be)) ∧
    (∀ cfg, sp.Cdn = some cfg → cdnNoFault cfg = true →
      (cdnUpdateNeeded cfg be →
        EnsureCDN sp be = some (true,
          { be with
            EnableCDN := cfg.Enabled,
            CdnPolicy := match cfg.CachePolicy with
              | some k => some (desiredCdnPolicy cfg k)
              | none => be.CdnPolicy })) ∧
      (¬cdnUpdateNeeded cfg be →
        EnsureCDN sp be = some (false, be))) := by
  constructor
  · intro h
    have hsp : sp = { Cdn := none } := by
      rcases sp with ⟨c⟩; simp at h; rw [h]
    rw [hsp]
    simp [EnsureCDN]
  · intro cfg h hnf
    have hsp : sp = { Cdn := some cfg } := by
      rcases sp with ⟨c⟩; simp at h; rw [h]
    rw [hsp]
    rcases hcp : cfg.CachePolicy with _ | k
    · have hopts : cfg.CacheMode = none ∧ cfg.RequestCoalescing = none ∧
          cfg.ServeWhileStaleSec = none := by
        simp [cdnNoFault, hcp, Bool.and_eq_true, Option.isNone_iff_eq_none] at hnf
        exact ⟨hnf.1.1, hnf.1.2, hnf.2⟩
      obtain ⟨hcm, hrc, hsws⟩ := hopts
      have h1 := applyCDN_cp_none_opts_none cfg {} hcp hcm hrc hsws
      have h2 := applyCDN_cp_none_opts_none cfg be hcp hcm hrc hsws
      constructor
      · intro hcond
        have hen : cfg.Enabled ≠ be.EnableCDN := by
          rcases hcond with ⟨hne, _⟩ | hen
          · exact absurd (by simp [desiredCdnPolicyOpt, hcp]) hne
          · exact hen
        simp [EnsureCDN, h1, h2, hcp, hen]
      · intro hcond
        have hen : cfg.Enabled = be.EnableCDN := by
          by_contra hne
          exact hcond (Or.inr hne)
        simp [EnsureCDN, h1, h2, hen]
    · have h1 := applyCDN_cp_some cfg {} k hcp
      have h2 := applyCDN_cp_some cfg be k hcp
      constructor
      · intro hcond
        have hcond' : some (desiredCdnPolicy cfg k) ≠ be.CdnPolicy ∨
            cfg.Enabled ≠ be.EnableCDN := by
          rcases hcond with ⟨_, hne⟩ | hen
          · exact Or.inl (by simpa [desiredCdnPolicyOpt, hcp] using hne)
          · exact Or.inr hen
        rcases hcond' with hne | hen
        · simp [EnsureCDN, h1, h2, hcp, hne]
        · simp [EnsureCDN, h1, h2, hcp, hen]
      · intro hcond
        have hpol : some (desiredCdnPolicy cfg k) = be.CdnPolicy := by
          by_contra hne
          exact hcond (Or.inl ⟨by simp [desiredCdnPolicyOpt, hcp],
            by simpa [desiredCdnPolicyOpt, hcp] using hne⟩)
        have hen : cfg.Enabled = be.EnableCDN := by
          by_contra hne
          exact hcond (Or.inr hne)
        simp [EnsureCDN, h1, h2, hpol, hen]

/-- C3 witness: an update is applied when CDN is being enabled, and a
repeated configuration reports no change. -/
theorem ensureCDN_diff_and_update_witness :
    EnsureCDN { Cdn := some { Enabled := true, CachePolicy := some {} } }
      ({} : BackendService) =
      some (true,
        { ({} : BackendService) with
          EnableCDN := true,
          CdnPolicy := some (desiredCdnPolicy
            { Enabled := true, CachePolicy := some {} } {}) }) :=
  ((ensureCDN_diff_and_update _ {}).2 _ rfl (by decide)).1
    (Or.inl ⟨by decide, by decide⟩)

/-- C9: under the no-fault precondition, whenever `EnsureCDN` returns false
the backend service is unchanged, and a repeated call immediately after one
that returned true returns false and leaves the backend service
unchanged. -/
theorem ensureCDN_idempotent (sp : ServicePort) (be : BackendService)
    (hnf : servicePortNoFault sp = true) :
    (∀ be2, EnsureCDN sp be = some (false, be2) → be2 = be) ∧
    (∀ be', EnsureCDN sp be = some (true, be') →
      EnsureCDN sp be' = some (false, be')) := by
  rcases sp with ⟨c⟩
  rcases c with _ | cfg
  · constructor
    · intro be2 hEq
      simp [EnsureCDN] at hEq
      exact hEq.symm
    · intro be' hEq
      simp [EnsureCDN] at hEq
  · have hnf' : cdnNoFault cfg = true := by
      simpa [servicePortNoFault] using hnf
    constructor
    · intro be2 hEq
      rcases happ : applyCDNSettings { Cdn := some cfg } {} with _ | beTemp
      · simp [EnsureCDN, happ] at hEq
      · simp only [EnsureCDN, happ] at hEq
        split at hEq
        · rcases happ2 : applyCDNSettings { Cdn := some cfg } be with _ | b' <;>
            simp [happ2] at hEq
        · simp at hEq
          exact hEq.symm
    · intro be' hEq
      rcases happ : applyCDNSettings { Cdn := some cfg } {} with _ | beTemp
      · simp [EnsureCDN, happ] at hEq
      · simp only [EnsureCDN, happ] at hEq
        split at hEq
        case isTrue hcond =>
          rcases happ2 : applyCDNSettings { Cdn := some cfg } be with _ | b'
          · simp [happ2] at hEq
          · simp [happ2] at hEq
            obtain rfl : b' = be' := hEq
            rcases hcp : cfg.CachePolicy with _ | k
            · have hopts : cfg.CacheMode = none ∧ cfg.RequestCoalescing = none ∧
                  cfg.ServeWhileStaleSec = none := by
                simp [cdnNoFault, hcp, Bool.and_eq_true,
                  Option.isNone_iff_eq_none] at hnf'
                exact ⟨hnf'.1.1, hnf'.1.2, hnf'.2⟩
              obtain ⟨hcm, hrc, hsws⟩ := hopts
              rw [applyCDN_cp_none_opts_none cfg {} hcp hcm hrc hsws] at happ
              obtain rfl := Option.some.inj happ
              rw [applyCDN_cp_none_opts_none cfg be hcp hcm hrc hsws] at happ2
              obtain rfl := Option.some.inj happ2
              simp [EnsureCDN,
                applyCDN_cp_none_opts_none cfg {} hcp hcm hrc hsws]
            · rw [applyCDN_cp_some cfg {} k hcp] at happ
              obtain rfl := Option.some.inj happ
              rw [applyCDN_cp_some cfg be k hcp] at happ2
              obtain rfl := Option.some.inj happ2
              simp [EnsureCDN, applyCDN_cp_some cfg {} k hcp]
        case isFalse hcond =>
          simp at hEq

/-- C9 witness: a call that enables CDN updates the service, and the
repeated call reports no change and leaves it unchanged. -/
theorem ensureCDN_idempotent_witness :
    EnsureCDN { Cdn := some { Enabled := true, CachePolicy := some {} } }
      { ({} : BackendService) with
        EnableCDN := true,
        CdnPolicy := some (desiredCdnPolicy
          { Enabled := true, CachePolicy := some {} } {}) } =
      some (false,
        { ({} : BackendService) with
          EnableCDN := true,
          CdnPolicy := some (desiredCdnPolicy
            { Enabled := true, CachePolicy := some {} } {}) }) :=
  (ensureCDN_idempotent
      { Cdn := some { Enabled := true, CachePolicy := some {} } } {}
      (by decide)).2 _ (by decide)

/-! ## Lemmas and theorem: L4 ILB metrics -/

lemma setAssoc_append (m : List (String × L4ILBServiceState)) (key : String)
    (v : L4ILBServiceState) (h : ∀ p ∈ m, p.1 ≠ key) :
    setAssoc m key v = m ++ [(key, v)] := by
  induction m with
  | nil => rfl
  | cons hd tl ih =>
    rcases hd with ⟨k0, v0⟩
    have hk0 : k0 ≠ key := h (k0, v0) (by simp)
    simp [setAssoc, hk0]
    exact ih (fun p hp => h p (by simp [hp]))

lemma foldl_setL4 (pairs : List (String × L4ILBServiceState))
    (acc : ControllerMetrics)
    (hnodup : pairs.Pairwise (fun a b => a.1 ≠ b.1))
    (hdisj : ∀ p ∈ pairs, ∀ q ∈ acc.l4ILBServiceMap, q.1 ≠ p.1) :
    (pairs.foldl (fun a p => SetL4ILBService a p.1 p.2) acc).l4ILBServiceMap =
      acc.l4ILBServiceMap ++ pairs := by
  induction pairs generalizing acc with
  | nil => simp
  | cons hd tl ih =>
    rw [List.foldl_cons]
    have hset : (SetL4ILBService acc hd.1 hd.2).l4ILBServiceMap =
        acc.l4ILBServiceMap ++ [(hd.1, hd.2)] := by
      simp [SetL4ILBService,
        setAssoc_append _ _ _ (fun q hq => hdisj hd (by simp) q hq)]
    have hpc := List.pairwise_cons.mp hnodup
    have hdisj' : ∀ p ∈ tl,
        ∀ q ∈ (SetL4ILBService acc hd.1 hd.2).l4ILBServiceMap, q.1 ≠ p.1 := by
      intro p hp q hq
      rw [hset] at hq
      rcases List.mem_append.mp hq with hq | hq
      · exact hdisj p (by simp [hp]) q hq
      · simp at hq
        rw [hq]
        exact hpc.1 p hp
    rw [ih _ hpc.2 hdisj', hset, List.append_assoc]
    simp

/-- C1: registering any finite collection of states under distinct keys and
aggregating yields exactly the five feature counts: the total number of
states, the tallies of `EnabledGlobalAccess`, `EnabledCustomSubnet` and
`InSuccess`, and the tally of `InSuccess = false`; the empty collection
gives five zeros (witness). -/
theorem computeL4ILBMetrics_tallies (pairs : List (String × L4ILBServiceState))
    (hnodup : pairs.Pairwise (fun a b => a.1 ≠ b.1)) :
    computeL4ILBMetrics
      (pairs.foldl (fun a p => SetL4ILBService a p.1 p.2) NewControllerMetrics) =
      { l4ILBService := pairs.length
        l4ILBGlobalAccess := (pairs.map Prod.snd).countP (fun s => s.EnabledGlobalAccess)
        l4ILBCustomSubnet := (pairs.map Prod.snd).countP (fun s => s.EnabledCustomSubnet)
        l4ILBInSuccess := (pairs.map Prod.snd).countP (fun s => s.InSuccess)
        l4ILBInError := (pairs.map Prod.snd).countP (fun s => !s.InSuccess) } := by
  have h := foldl_setL4 pairs NewControllerMetrics hnodup
    (by simp [NewControllerMetrics])
  simp [NewControllerMetrics] at h
  simp [computeL4ILBMetrics, NewControllerMetrics, h]

/-- C1 witness: the empty collection gives five zeros, and a three-service
collection with distinct keys gives the expected tallies. -/
theorem computeL4ILBMetrics_tallies_witness :
    computeL4ILBMetrics NewControllerMetrics =
      { l4ILBService := 0, l4ILBGlobalAccess := 0, l4ILBCustomSubnet := 0,
        l4ILBInSuccess := 0, l4ILBInError := 0 } ∧
    computeL4ILBMetrics
      ([("0", newL4ILBServiceState false false true),
        ("1", newL4ILBServiceState false true false),
        ("2", newL4ILBServiceState true false true)].foldl
          (fun a p => SetL4ILBService a p.1 p.2) NewControllerMetrics) =
      { l4ILBService := 3, l4ILBGlobalAccess := 1, l4ILBCustomSubnet := 1,
        l4ILBInSuccess := 2, l4ILBInError := 1 } :=
  ⟨computeL4ILBMetrics_tallies [] (by simp),
   (computeL4ILBMetrics_tallies
      [("0", newL4ILBServiceState false false true),
       ("1", newL4ILBServiceState false true false),
       ("2", newL4ILBServiceState true false true)] (by decide)).trans (by decide)⟩

/-! ## Lemmas and theorems: composite wrappers -/

lemma keyType_name_update (key : MetaKey) (n : String) :
    ({ key with name := n } : MetaKey).keyType = key.keyType := rfl

/-- C6: each proxy / forwarding-rule setter issues exactly one generated
call, of the resource's version and the key's scope (Regional vs. other),
carrying the given link or certificate list in the version's
reference/request type, and returns that call's (observed) result. -/
theorem proxy_setters_dispatch (env : SdkEnv) (key : MetaKey)
    (hp : TargetHttpsProxy) (tp : TargetHttpProxy) (fr : ForwardingRule)
    (urlMapLink : String) (sslCertURLs : List String) (targetProxyLink : String) :
    SetUrlMapForTargetHttpsProxy env key hp urlMapLink =
      ([Step.sdkCall (.targetHttpsProxiesSetUrlMap hp.Version
          (decide (key.keyType = .regional)) urlMapLink)],
        env.call (.targetHttpsProxiesSetUrlMap hp.Version
          (decide (key.keyType = .regional)) urlMapLink)) ∧
    SetSslCertificateForTargetHttpsProxy env key hp sslCertURLs =
      ([Step.sdkCall (.targetHttpsProxiesSetSslCertificates hp.Version
          (decide (key.keyType = .regional)) sslCertURLs)],
        env.call (.targetHttpsProxiesSetSslCertificates hp.Version
          (decide (key.keyType = .regional)) sslCertURLs)) ∧
    SetUrlMapForTargetHttpProxy env key tp urlMapLink =
      ([Step.sdkCall (.targetHttpProxiesSetUrlMap tp.Version
          (decide (key.keyType = .regional)) urlMapLink)],
        env.call (.targetHttpProxiesSetUrlMap tp.Version
          (decide (key.keyType = .regional)) urlMapLink)) ∧
    SetProxyForForwardingRule env key fr targetProxyLink =
      ([Step.sdkCall (.forwardingRulesSetTarget fr.Version
          (decide (key.keyType = .regional)) targetProxyLink)],
        env.call (.forwardingRulesSetTarget fr.Version
          (decide (key.keyType = .regional)) targetProxyLink)) := by
  refine ⟨?_, ?_, ?_, ?_⟩
  · rcases hp with ⟨n, v⟩
    cases v <;> rcases hkt : key.keyType <;>
      simp [SetUrlMapForTargetHttpsProxy, issueCall, Observe,
        keyType_name_update, hkt]
  · rcases hp with ⟨n, v⟩
    cases v <;> rcases hkt : key.keyType <;>
      simp [SetSslCertificateForTargetHttpsProxy, issueCall, Observe,
        keyType_name_update, hkt]
  · rcases tp with ⟨n, v⟩
    cases v <;> rcases hkt : key.keyType <;>
      simp [SetUrlMapForTargetHttpProxy, issueCall, Observe,
        keyType_name_update, hkt]
  · rcases fr with ⟨n, v⟩
    cases v <;> rcases hkt : key.keyType <;>
      simp [SetProxyForForwardingRule, issueCall, Observe,
        keyType_name_update, hkt]

lemma addSignedUrlKey_eq_hack (env : SdkEnv) (key : MetaKey)
    (bs : BackendService) (suk : SignedUrlKey) :
    AddSignedUrlKey env key bs suk =
      observeHack (gceBackendServicesAddSignedUrlKey env key suk) := by
  cases hbsv : bs.Version <;> rcases hkt : key.keyType <;>
    simp [AddSignedUrlKey, SignedUrlKey.toAlpha, SignedUrlKey.toBeta,
      SignedUrlKey.toGA, hbsv, hkt]

lemma deleteSignedUrlKey_eq_hack (env : SdkEnv) (key : MetaKey)
    (bs : BackendService) (keyName : String) :
    DeleteSignedUrlKey env key bs keyName =
      observeHack (gceBackendServicesDeleteSignedUrlKey env key keyName) := by
  cases hbsv : bs.Version <;> rcases hkt : key.keyType <;>
    simp [DeleteSignedUrlKey, hbsv, hkt]

lemma hackAdd_trace (env : SdkEnv) (key : MetaKey) (suk : SignedUrlKey)
    (hv : key.valid = true) (hr : env.rateLimiterAccept = none) :
    issuedCalls (gceBackendServicesAddSignedUrlKey env key suk).1 =
      [.gaBackendServicesAddSignedUrlKey env.projectID key.name
        { KeyName := suk.KeyName, KeyValue := suk.KeyValue }] := by
  cases hc : env.call (.gaBackendServicesAddSignedUrlKey env.projectID key.name
      { KeyName := suk.KeyName, KeyValue := suk.KeyValue }) <;>
    simp [gceBackendServicesAddSignedUrlKey, SignedUrlKey.toGA, hv, hr, hc,
      issuedCalls]

lemma hackDelete_trace (env : SdkEnv) (key : MetaKey) (keyName : String)
    (hv : key.valid = true) (hr : env.rateLimiterAccept = none) :
    issuedCalls (gceBackendServicesDeleteSignedUrlKey env key keyName).1 =
      [.gaBackendServicesDeleteSignedUrlKey env.projectID key.name keyName] := by
  cases hc : env.call (.gaBackendServicesDeleteSignedUrlKey env.projectID
      key.name keyName) <;>
    simp [gceBackendServicesDeleteSignedUrlKey, hv, hr, hc, issuedCalls]

/-- C4 counterexample: for an alpha-versioned backend service and a regional
key, the call issued by `AddSignedUrlKey` is the GA global hacked method,
not the alpha regional one the claim requires. -/
theorem addSignedUrlKey_version_dispatch_cex :
    bsAlphaCex.Version = .alpha ∧
    keyRegionalCex.keyType = .regional ∧
    (issuedCalls (AddSignedUrlKey envOk keyRegionalCex bsAlphaCex sukCex).1).map
      ApiCall.version = [.ga] ∧
    (issuedCalls (AddSignedUrlKey envOk keyRegionalCex bsAlphaCex sukCex).1).map
      ApiCall.regionalScope = [false] :=
  ⟨rfl, rfl, rfl, rfl⟩

/-- C4 (amended): every version and scope branch of `AddSignedUrlKey` and
`DeleteSignedUrlKey` dispatches to the hacked GA global `BackendServices`
signed-URL-key method (the versioned generated calls are commented out);
the version switch only selects the payload conversion.  When the key is
valid and the rate limiter accepts, the issued call is exactly the GA
global method with the key's name. -/
theorem signedUrlKey_ops_use_hacked_ga (env : SdkEnv) (key : MetaKey)
    (bs : BackendService) (suk : SignedUrlKey) (keyName : String) :
    AddSignedUrlKey env key bs suk =
      observeHack (gceBackendServicesAddSignedUrlKey env key suk) ∧
    DeleteSignedUrlKey env key bs keyName =
      observeHack (gceBackendServicesDeleteSignedUrlKey env key keyName) ∧
    (key.valid = true → env.rateLimiterAccept = none →
      issuedCalls (AddSignedUrlKey env key bs suk).1 =
        [.gaBackendServicesAddSignedUrlKey env.projectID key.name
          { KeyName := suk.KeyName, KeyValue := suk.KeyValue }] ∧
      issuedCalls (DeleteSignedUrlKey env key bs keyName).1 =
        [.gaBackendServicesDeleteSignedUrlKey env.projectID key.name keyName]) := by
  refine ⟨addSignedUrlKey_eq_hack env key bs suk,
    deleteSignedUrlKey_eq_hack env key bs keyName, fun hv hr => ⟨?_, ?_⟩⟩
  · rw [addSignedUrlKey_eq_hack]
    exact hackAdd_trace env key suk hv hr
  · rw [deleteSignedUrlKey_eq_hack]
    exact hackDelete_trace env key keyName hv hr

/-- C4 witness: the amended theorem evaluated at a valid global key. -/
theorem signedUrlKey_ops_use_hacked_ga_witness :
    issuedCalls (AddSignedUrlKey envOk (MetaKey.globalKey "bs-1")
        bsAlphaCex sukCex).1 =
      [.gaBackendServicesAddSignedUrlKey "proj" "bs-1"
        { KeyName := "key-1", KeyValue := "secret" }] :=
  ((signedUrlKey_ops_use_hacked_ga envOk (MetaKey.globalKey "bs-1")
      bsAlphaCex sukCex "key-1").2.2 rfl rfl).1

/-- C5 counterexample: `SetSslPolicyForTargetHttpsProxy` on a regional key
returns a constructed error while issuing no SDK call, in an environment
where every SDK call would succeed — so the error is not a pass-through of
any wrapped call. -/
theorem setSslPolicy_constructed_error_cex :
    SetSslPolicyForTargetHttpsProxy envOk keyRegionalCex proxyGACex "link" =
      ([], some "SetSslPolicy() is not supported for regional Target Https Proxies") ∧
    envOk.call (.targetHttpsProxiesSetSslPolicy .ga "link") = none :=
  ⟨rfl, rfl⟩

/-- C5 (amended): on every branch that issues an SDK call the wrapper's
result is exactly that call's (observed) error — unconditionally for the
four proxy / forwarding-rule setters, and for the non-guard branches of the
others, including rate-limiter and wait-for-completion pass-through in the
hacked signed-URL-key methods and the composite-level wrappers around
them.  The guard branches construct errors of their own:
`SetSslPolicyForTargetHttpsProxy` for regional keys, `SetSecurityPolicy`
for non-global backend services, and both hacked signed-URL-key methods for
invalid keys. -/
theorem wrapper_error_passthrough_amended (env : SdkEnv) (key : MetaKey)
    (hp : TargetHttpsProxy) (tp : TargetHttpProxy) (fr : ForwardingRule)
    (bs : BackendService) (suk : SignedUrlKey)
    (link policy keyName : String) (certs : List String) :
    (SetUrlMapForTargetHttpsProxy env key hp link).2 =
      env.call (.targetHttpsProxiesSetUrlMap hp.Version
        (decide (key.keyType = .regional)) link) ∧
    (SetSslCertificateForTargetHttpsProxy env key hp certs).2 =
      env.call (.targetHttpsProxiesSetSslCertificates hp.Version
        (decide (key.keyType = .regional)) certs) ∧
    (SetUrlMapForTargetHttpProxy env key tp link).2 =
      env.call (.targetHttpProxiesSetUrlMap tp.Version
        (decide (key.keyType = .regional)) link) ∧
    (SetProxyForForwardingRule env key fr link).2 =
      env.call (.forwardingRulesSetTarget fr.Version
        (decide (key.keyType = .regional)) link) ∧
    (key.keyType ≠ .regional →
      (SetSslPolicyForTargetHttpsProxy env key hp link).2 =
        env.call (.targetHttpsProxiesSetSslPolicy hp.Version link)) ∧
    (key.keyType = .regional →
      SetSslPolicyForTargetHttpsProxy env key hp link =
        ([], some "SetSslPolicy() is not supported for regional Target Https Proxies")) ∧
    (bs.Scope = .global_ →
      (SetSecurityPolicy env bs policy).2 =
        env.call (.backendServicesSetSecurityPolicy bs.Version
          (if policy ≠ "" then
            some (selfLinkSecurityPolicy bs.Version env.projectID policy)
          else none))) ∧
    (bs.Scope ≠ .global_ →
      (SetSecurityPolicy env bs policy).2 =
        some ("cloud armor security policies not supported for backend service " ++
          bs.Name)) ∧
    (key.valid = false →
      (gceBackendServicesAddSignedUrlKey env key suk).2 = some "invalid GCE key" ∧
      (gceBackendServicesDeleteSignedUrlKey env key keyName).2 =
        some "invalid GCE key") ∧
    (key.valid = true → ∀ e, env.rateLimiterAccept = some e →
      (gceBackendServicesAddSignedUrlKey env key suk).2 = some e ∧
      (gceBackendServicesDeleteSignedUrlKey env key keyName).2 = some e) ∧
    (key.valid = true → env.rateLimiterAccept = none →
      (gceBackendServicesAddSignedUrlKey env key suk).2 =
        (match env.call (.gaBackendServicesAddSignedUrlKey env.projectID key.name
            { KeyName := suk.KeyName, KeyValue := suk.KeyValue }) with
          | some e => some e
          | none => env.waitForCompletion) ∧
      (gceBackendServicesDeleteSignedUrlKey env key keyName).2 =
        (match env.call (.gaBackendServicesDeleteSignedUrlKey env.projectID
            key.name keyName) with
          | some e => some e
          | none => env.waitForCompletion)) ∧
    (AddSignedUrlKey env key bs suk).2 =
      (gceBackendServicesAddSignedUrlKey env key suk).2 ∧
    (DeleteSignedUrlKey env key bs keyName).2 =
      (gceBackendServicesDeleteSignedUrlKey env key keyName).2 := by
  refine ⟨?_, ?_, ?_, ?_, ?_, ?_, ?_, ?_, ?_, ?_, ?_, ?_, ?_⟩
  · rcases hp with ⟨n, v⟩
    cases v <;> rcases hkt : key.keyType <;>
      simp [SetUrlMapForTargetHttpsProxy, issueCall, Observe,
        keyType_name_update, hkt]
  · rcases hp with ⟨n, v⟩
    cases v <;> rcases hkt : key.keyType <;>
      simp [SetSslCertificateForTargetHttpsProxy, issueCall, Observe,
        keyType_name_update, hkt]
  · rcases tp with ⟨n, v⟩
    cases v <;> rcases hkt : key.keyType <;>
      simp [SetUrlMapForTargetHttpProxy, issueCall, Observe,
        keyType_name_update, hkt]
  · rcases fr with ⟨n, v⟩
    cases v <;> rcases hkt : key.keyType <;>
      simp [SetProxyForForwardingRule, issueCall, Observe,
        keyType_name_update, hkt]
  · intro hkt
    rcases hp with ⟨n, v⟩
    rcases hkt' : key.keyType with _ | _ | _ <;> first
      | exact absurd hkt' hkt
      | cases v <;>
          simp [SetSslPolicyForTargetHttpsProxy, issueCall, Observe,
            keyType_name_update, hkt']
  · intro hkt
    rcases hp with ⟨n, v⟩
    cases v <;>
      simp [SetSslPolicyForTargetHttpsProxy, keyType_name_update, hkt]
  · intro hsc
    cases hv : bs.Version <;>
      simp [SetSecurityPolicy, issueCall, Observe, hsc, hv]
  · intro hsc
    rcases hsc' : bs.Scope with _ | _ | _ <;> first
      | exact absurd hsc' hsc
      | simp [SetSecurityPolicy, hsc']
  · intro hv
    refine ⟨?_, ?_⟩
    · simp [gceBackendServicesAddSignedUrlKey, SignedUrlKey.toGA, hv]
    · simp [gceBackendServicesDeleteSignedUrlKey, hv]
  · intro hv e he
    refine ⟨?_, ?_⟩
    · simp [gceBackendServicesAddSignedUrlKey, SignedUrlKey.toGA, hv, he]
    · simp [gceBackendServicesDeleteSignedUrlKey, hv, he]
  · intro hv hr
    refine ⟨?_, ?_⟩
    · cases hc : env.call (.gaBackendServicesAddSignedUrlKey env.projectID key.name
          { KeyName := suk.KeyName, KeyValue := suk.KeyValue }) <;>
        simp [gceBackendServicesAddSignedUrlKey, SignedUrlKey.toGA, hv, hr, hc]
    · cases hc : env.call (.gaBackendServicesDeleteSignedUrlKey env.projectID
          key.name keyName) <;>
        simp [gceBackendServicesDeleteSignedUrlKey, hv, hr, hc]
  · rw [addSignedUrlKey_eq_hack]
    simp [observeHack, Observe]
  · rw [deleteSignedUrlKey_eq_hack]
    simp [observeHack, Observe]

/-- C5 witness: the amended theorem evaluated at a global key and GA proxy
(pass-through), at an invalid key (constructed error) and at a rejecting
rate limiter (rate-limiter error passed through). -/
theorem wrapper_error_passthrough_amended_witness :
    (SetSslPolicyForTargetHttpsProxy envOk (MetaKey.globalKey "p")
        proxyGACex "link").2 =
      envOk.call (.targetHttpsProxiesSetSslPolicy .ga "link") ∧
    (gceBackendServicesAddSignedUrlKey envOk
        { name := "bs", zone := "z", region := "r" } sukCex).2 =
      some "invalid GCE key" ∧
    (gceBackendServicesAddSignedUrlKey
        { call := fun _ => none, projectID := "proj",
          rateLimiterAccept := some "quota exceeded" }
        (MetaKey.globalKey "bs-1") sukCex).2 = some "quota exceeded" :=
  ⟨(wrapper_error_passthrough_amended envOk (MetaKey.globalKey "p") proxyGACex
      { Name := "t" } { Name := "f" } bsAlphaCex sukCex
      "link" "pol" "kn" []).2.2.2.2.1 (by decide),
   ((wrapper_error_passthrough_amended envOk
      { name := "bs", zone := "z", region := "r" } proxyGACex
      { Name := "t" } { Name := "f" } bsAlphaCex sukCex
      "link" "pol" "kn" []).2.2.2.2.2.2.2.2.1 (by decide)).1,
   (((wrapper_error_passthrough_amended
      { call := fun _ => none, projectID := "proj",
        rateLimiterAccept := some "quota exceeded" }
      (MetaKey.globalKey "bs-1") proxyGACex
      { Name := "t" } { Name := "f" } bsAlphaCex sukCex
      "link" "pol" "kn" []).2.2.2.2.2.2.2.2.2.1
      (by decide)) "quota exceeded" rfl).1⟩

/-- C7 counterexample: the hacked `gceBackendServices.AddSignedUrlKey`
performs rate-limiter acceptance and operation-completion waiting directly:
its step trace is acceptance, the SDK call, then the wait — not SDK calls
only. -/
theorem hacked_add_ratelimit_poll_cex :
    (gceBackendServicesAddSignedUrlKey envOk (MetaKey.globalKey "bs-1") sukCex).1 =
      [.rateLimiterAccept "AddSignedUrlKey",
       .sdkCall (.gaBackendServicesAddSignedUrlKey "proj" "bs-1"
         { KeyName := "key-1", KeyValue := "secret" }),
       .waitForCompletion] ∧
    onlySdkCalls
      (gceBackendServicesAddSignedUrlKey envOk (MetaKey.globalKey "bs-1") sukCex).1 =
      false :=
  ⟨rfl, rfl⟩

/-- C7 (amended): the proxy, forwarding-rule and security-policy setters
only issue SDK calls — rate limiting and operation polling stay inside the
called libraries — but the signed-URL-key operations, through the hacked
`gceBackendServices` methods, perform rate-limiter acceptance and (after a
successful call) operation-completion waiting directly. -/
theorem ratelimit_polling_locus (env : SdkEnv) (key : MetaKey)
    (hp : TargetHttpsProxy) (tp : TargetHttpProxy) (fr : ForwardingRule)
    (bs : BackendService) (suk : SignedUrlKey)
    (link policy keyName : String) (certs : List String) :
    onlySdkCalls (SetUrlMapForTargetHttpsProxy env key hp link).1 = true ∧
    onlySdkCalls (SetSslCertificateForTargetHttpsProxy env key hp certs).1 = true ∧
    onlySdkCalls (SetSslPolicyForTargetHttpsProxy env key hp link).1 = true ∧
    onlySdkCalls (SetUrlMapForTargetHttpProxy env key tp link).1 = true ∧
    onlySdkCalls (SetProxyForForwardingRule env key fr link).1 = true ∧
    onlySdkCalls (SetSecurityPolicy env bs policy).1 = true ∧
    (key.valid = true → env.rateLimiterAccept = none →
      Step.rateLimiterAccept "AddSignedUrlKey" ∈
        (AddSignedUrlKey env key bs suk).1 ∧
      Step.rateLimiterAccept "DeleteSignedUrlKey" ∈
        (DeleteSignedUrlKey env key bs keyName).1 ∧
      (env.call (.gaBackendServicesAddSignedUrlKey env.projectID key.name
          { KeyName := suk.KeyName, KeyValue := suk.KeyValue }) = none →
        Step.waitForCompletion ∈ (AddSignedUrlKey env key bs suk).1)) := by
  refine ⟨?_, ?_, ?_, ?_, ?_, ?_, fun hv hr => ⟨?_, ?_, ?_⟩⟩
  · rcases hp with ⟨n, v⟩
    cases v <;> rcases hkt : key.keyType <;>
      simp [SetUrlMapForTargetHttpsProxy, issueCall, onlySdkCalls,
        keyType_name_update, hkt]
  · rcases hp with ⟨n, v⟩
    cases v <;> rcases hkt : key.keyType <;>
      simp [SetSslCertificateForTargetHttpsProxy, issueCall, onlySdkCalls,
        keyType_name_update, hkt]
  · rcases hp with ⟨n, v⟩
    cases v <;> rcases hkt : key.keyType <;>
      simp [SetSslPolicyForTargetHttpsProxy, issueCall, onlySdkCalls,
        keyType_name_update, hkt]
  · rcases tp with ⟨n, v⟩
    cases v <;> rcases hkt : key.keyType <;>
      simp [SetUrlMapForTargetHttpProxy, issueCall, onlySdkCalls,
        keyType_name_update, hkt]
  · rcases fr with ⟨n, v⟩
    cases v <;> rcases hkt : key.keyType <;>
      simp [SetProxyForForwardingRule, issueCall, onlySdkCalls,
        keyType_name_update, hkt]
  · rcases hsc : bs.Scope <;> cases hv : bs.Version <;>
      simp [SetSecurityPolicy, issueCall, onlySdkCalls, hsc, hv]
  · rw [addSignedUrlKey_eq_hack]
    cases hc : env.call (.gaBackendServicesAddSignedUrlKey env.projectID key.name
        { KeyName := suk.KeyName, KeyValue := suk.KeyValue }) <;>
      simp [observeHack, gceBackendServicesAddSignedUrlKey, SignedUrlKey.toGA,
        hv, hr, hc]
  · rw [deleteSignedUrlKey_eq_hack]
    cases hc : env.call (.gaBackendServicesDeleteSignedUrlKey env.projectID
        key.name keyName) <;>
      simp [observeHack, gceBackendServicesDeleteSignedUrlKey, hv, hr, hc]
  · intro hc
    rw [addSignedUrlKey_eq_hack]
    simp [observeHack, gceBackendServicesAddSignedUrlKey, SignedUrlKey.toGA,
      hv, hr, hc]

/-- C7 witness: the amended theorem applied at a valid global key in the
all-succeeding environment. -/
theorem ratelimit_polling_locus_witness :
    onlySdkCalls (SetUrlMapForTargetHttpsProxy envOk (MetaKey.globalKey "p")
        proxyGACex "m").1 = true ∧
    Step.rateLimiterAccept "AddSignedUrlKey" ∈
      (AddSignedUrlKey envOk (MetaKey.globalKey "bs-1") bsAlphaCex sukCex).1 :=
  ⟨(ratelimit_polling_locus envOk (MetaKey.globalKey "p") proxyGACex
      { Name := "t" } { Name := "f" } bsAlphaCex sukCex "m" "pol" "kn" []).1,
   ((ratelimit_polling_locus envOk (MetaKey.globalKey "bs-1") proxyGACex
      { Name := "t" } { Name := "f" } bsAlphaCex sukCex "m" "pol" "kn" []).2.2.2.2.2.2
      rfl rfl).1⟩

/-- C10: `Sandbox.Ensure` tolerates a pre-existing namespace: a creation
error whose message ends in "already exists" lets it proceed to build the
validator environment (returning nil when that succeeds), while any other
creation error is returned at once without building the validator
environment. -/
theorem sandbox_ensure_existing_namespace (env : SandboxEnv) (s : Sandbox) :
    (∀ e, env.createNamespace = some e → hasSuffix e "already exists" = true →
      (Sandbox.Ensure env s).validatorBuilt = true ∧
      (∀ v, env.newDefaultValidatorEnv = .ok v →
        (Sandbox.Ensure env s).err = none)) ∧
    (∀ e, env.createNamespace = some e → hasSuffix e "already exists" = false →
      (Sandbox.Ensure env s).err = some e ∧
      (Sandbox.Ensure env s).validatorBuilt = false) := by
  constructor
  · intro e he hsuf
    constructor
    · rcases hv : env.newDefaultValidatorEnv with e2 | v <;>
        simp [Sandbox.Ensure, he, hsuf, hv]
    · intro v hv
      simp [Sandbox.Ensure, he, hsuf, hv]
  · intro e he hsuf
    simp [Sandbox.Ensure, he, hsuf]

/-- C10 witness: an "already exists" creation error yields success, a
different error is returned unchanged. -/
theorem sandbox_ensure_existing_namespace_witness :
    (Sandbox.Ensure { createNamespace := some "namespaces sandbox-1 already exists" }
        {}).err = none ∧
    (Sandbox.Ensure { createNamespace := some "connection refused" } {}).err =
      some "connection refused" :=
  ⟨((sandbox_ensure_existing_namespace _ {}).1 _ rfl (by decide)).2 _ rfl,
   ((sandbox_ensure_existing_namespace _ {}).2 _ rfl (by decide)).1⟩
